import Mathlib

/-!
Verification development for the gNMI-API repository.

This file gives a shallow embedding, in Lean 4, of the algorithmic core of
the repository: the path codec (`utils.create_gnmi_path`), the typed value
decoder (`gnmi_manager.GNMIManager.get_value` with its inner `int_parse`),
the index-name deriver (`utils.yang_path_to_es_index`), the YANG tree
flattener (`gnmi_manager.GNMIManager._walk_yang_data`), the per-notification
record assembly of `GNMIManager.get`, the per-response assembly of
`GNMIManager.subscribe`, and the set-request builder
(`responses.ParsedSetRequest`).

Modelling conventions:
- Python strings are modelled as Lean `String`s, or as `List Char`
  (codepoint sequences) where byte-length versus codepoint-count matters.
- Python dicts are modelled as insertion-ordered association lists;
  assignment to an existing key updates it in place, assignment to a
  fresh key appends (`updAssoc`), matching CPython dict semantics.
- Parsed JSON documents (the result of `json.loads` on a wire payload) are
  modelled by the inductive `JValue`; the object/array children are
  chain-encoded (`objCons`/`arrCons`) so that all functions over them are
  plainly structural and compute by `rfl`.  The builders `jobj` and `jarr`
  produce exactly the chains corresponding to Python dict/list literals.
- Python exceptions are modelled with `Except PyErr`; the constructors
  record which Python error is raised (IndexError on `path[0]` of an empty
  string, ValueError from `dict(...)` on a predicate without `=`, KeyError
  from the keyword-namespace lookup, AttributeError from `.items()` on a
  non-dict, and the explicit `GNMIException("Unsupported Get encoding")`).
- The recursive walker `_walk_yang_data` is written fuel-indexed
  (`walkF`), structurally recursive on the fuel; the wrapper
  `walk_yang_data` instantiates the fuel with the structural size `jsize`
  of the value, which strictly dominates the recursion depth, so the
  wrapper never exhausts the fuel.
- The aliasing behaviour of `_walk_yang_data` is modelled exactly: the
  single `key_temp` copy made at a node is threaded through all the
  children of that node, and the records appended for bare scalar list
  items keep a live reference to the list node's dict (modelled with
  `RH.hole` placeholders resolved to the dict's final value when the node
  finishes iterating, which is when the dict becomes unreachable for
  further mutation in the Python code).
-/

/- ### JSON data model (result of json.loads) -/

/-- A JSON scalar as produced by `json.loads`: string, integer, boolean or
null.  (Non-integral JSON numbers do not occur in any claim; the telemetry
payloads under test carry integers and strings.) -/
inductive JPrim where
  | s : String → JPrim
  | i : Int → JPrim
  | b : Bool → JPrim
  | null : JPrim
deriving DecidableEq

/-- A parsed JSON document.  Objects and arrays are chain-encoded:
`objCons name value rest` is the dict whose first item is `(name, value)`
and whose remaining items are the object chain `rest`; similarly for
arrays.  Use `jobj` / `jarr` to build values from Lean lists. -/
inductive JValue where
  | prim : JPrim → JValue
  | objNil : JValue
  | objCons : String → JValue → JValue → JValue
  | arrNil : JValue
  | arrCons : JValue → JValue → JValue
deriving DecidableEq

/-- Build the chain encoding of a JSON object from a list of fields. -/
def jobj : List (String × JValue) → JValue
  | [] => .objNil
  | (k, v) :: rest => .objCons k v (jobj rest)

/-- Build the chain encoding of a JSON array from a list of elements. -/
def jarr : List JValue → JValue
  | [] => .arrNil
  | v :: rest => .arrCons v (jarr rest)

/-- `isinstance(value, dict)`. -/
def JValue.isDict : JValue → Bool
  | .objNil | .objCons _ _ _ => true
  | _ => false

/-- `isinstance(value, list)`. -/
def JValue.isList : JValue → Bool
  | .arrNil | .arrCons _ _ => true
  | _ => false

/-- The items of an object chain, in insertion order (`value.items()`). -/
def JValue.fields : JValue → List (String × JValue)
  | .objCons k v rest => (k, v) :: rest.fields
  | _ => []

/-- The elements of an array chain, in order. -/
def JValue.elements : JValue → List JValue
  | .arrCons v rest => v :: rest.elements
  | _ => []

/-- Structural size of a JSON value; used as fuel for the walker. -/
def jsize : JValue → Nat
  | .prim _ => 1
  | .objNil => 1
  | .objCons _ v rest => 1 + jsize v + jsize rest
  | .arrNil => 1
  | .arrCons v rest => 1 + jsize v + jsize rest

/-- Insertion-ordered association map modelling a CPython dict, used for
the key context (`keys` / `key_temp`) of `_walk_yang_data`. -/
abbrev KMap := List (String × JPrim)

/-- CPython dict assignment `d[k] = v`: update in place if `k` is present
(keeping its original position), else append. -/
def updAssoc {α : Type} : List (String × α) → String → α → List (String × α)
  | [], k, v => [(k, v)]
  | (k', v') :: rest, k, v =>
      if k' = k then (k', v) :: rest else (k', v') :: updAssoc rest k v

/-- One flat leaf record appended to `leaves` by `_walk_yang_data`
(`{"keys": ..., "yang_path": ..., "value": ...}`). -/
structure LeafRec where
  keys : KMap
  yang_path : String
  value : JValue
deriving DecidableEq

/-- Intermediate record used to model the aliasing of `key_temp` in the
list branch of `_walk_yang_data`: a `hole` is a record whose `keys` field
is a live reference to the list node's dict, resolved when the node
finishes iterating. -/
inductive RH where
  | done : LeafRec → RH
  | hole : String → JValue → RH

/- ### The tree flattener: GNMIManager._walk_yang_data -/

/-- Fuel-indexed embedding of `GNMIManager._walk_yang_data`
(src/gnmi_manager.py lines 233-251).  The state threading models the
Python mutation exactly: the returned `KMap` is the final value of the
dict object that the CALLER passed in (it is mutated only by the
scalar-keyword branch, `keys[in_key] = in_value`); the single copy
`key_temp` made on entry is threaded through all children of a mapping or
list node, so a keyword assignment made by one child is seen by the
children visited after it.  Records for bare scalar list items hold a
reference to the list node's `key_temp` and are resolved to its final
value (`RH.hole`). -/
def walkF : Nat → List String → String → JValue → List String → KMap → KMap × List LeafRec
  | 0, _, _, _, _, keys => (keys, [])
  | fuel+1, start_yang_path, in_key, in_value, keywords, keys =>
    let yp := start_yang_path ++ [in_key]
    if in_value.isDict then
      let r := in_value.fields.foldl
        (fun (acc : KMap × List LeafRec) kv =>
          let w := walkF fuel yp kv.1 kv.2 keywords acc.1
          (w.1, acc.2 ++ w.2)) (keys, [])
      (keys, r.2)
    else if in_value.isList then
      let r := in_value.elements.foldl
        (fun (acc : KMap × List RH) item =>
          if item.isDict then
            item.fields.foldl
              (fun (a2 : KMap × List RH) kv =>
                let w := walkF fuel yp kv.1 kv.2 keywords a2.1
                (w.1, a2.2 ++ w.2.map RH.done)) acc
          else (acc.1, acc.2 ++ [RH.hole (String.intercalate ("/") yp) item]))
        (keys, [])
      (keys, r.2.map (fun h =>
        match h with
        | .done lr => lr
        | .hole pa v => ⟨r.1, pa, v⟩))
    else
      match in_value with
      | .prim p =>
          if in_key ∈ keywords then (updAssoc keys in_key p, [])
          else (keys, [⟨keys, String.intercalate ("/") yp, .prim p⟩])
      | _ => (keys, [])

/-- `GNMIManager._walk_yang_data`, with enough fuel for its argument. -/
def walk_yang_data (start_yang_path : List String) (in_key : String)
    (in_value : JValue) (keywords : List String) (keys : KMap) :
    KMap × List LeafRec :=
  walkF (jsize in_value) start_yang_path in_key in_value keywords keys

/- ### The typed value decoder: GNMIManager.get_value -/

/-- A scalar element of a `leaflist_val` (`gnmi_pb2.ScalarArray`): one
`TypedValue` carrying a scalar tag.  The spec states that a nested
leaf-list inside a leaf-list "is not expected and undefined", and no JSON
payload occurs inside a leaf-list in any claim, so leaf-list elements are
modelled by the scalar tags only. -/
inductive LLElem where
  | string_val : String → LLElem
  | int_val : Int → LLElem
  | uint_val : Nat → LLElem
  | bool_val : Bool → LLElem
  | bytes_val : List Nat → LLElem
  | float_val : Float → LLElem
  | decimal_val : Int → LLElem
  | ascii_val : String → LLElem
  | proto_bytes : List Nat → LLElem

/-- The tagged union `gnmi_pb2.TypedValue`.  Exactly one tag is populated
(`WhichOneof("value")` is the constructor).  The payload of the
JSON-carrying tags is modelled by its parsed tree (`json.loads` of the
wire bytes); `decimal_val` is modelled by its `digits` field, which is all
`decimal_parse` reads. -/
inductive TypedValue where
  | string_val : String → TypedValue
  | int_val : Int → TypedValue
  | uint_val : Nat → TypedValue
  | bool_val : Bool → TypedValue
  | bytes_val : List Nat → TypedValue
  | float_val : Float → TypedValue
  | decimal_val : Int → TypedValue
  | leaflist_val : List LLElem → TypedValue
  | json_val : JValue → TypedValue
  | json_ietf_val : JValue → TypedValue
  | ascii_val : String → TypedValue
  | proto_bytes : List Nat → TypedValue

/-- The native value returned by `GNMIManager.get_value`. -/
inductive GV where
  | s : String → GV
  | i : Int → GV
  | b : Bool → GV
  | bytes : List Nat → GV
  | fl : Float → GV
  | list : List GV → GV
  | json : JValue → GV

/-- Inner `int_parse` of `GNMIManager.get_value`
(src/gnmi_manager.py lines 363-366): an integer whose value exceeds
`2**63 - 1` is replaced by its decimal string `str(value)`. -/
def int_parse (value : Int) : GV :=
  if value > 2 ^ 63 - 1 then .s (toString value) else .i value

/-- Decoding of one leaf-list element through the `value_encodings` table
(inner `leaf_list_parse` of `get_value`). -/
def ll_elem_parse : LLElem → GV
  | .string_val s => .s s
  | .int_val v => int_parse v
  | .uint_val v => int_parse v
  | .bool_val b => .b b
  | .bytes_val bs => .bytes bs
  | .float_val f => .fl f
  | .decimal_val d => .i d
  | .ascii_val s => .s s
  | .proto_bytes bs => .bytes bs

/-- `GNMIManager.get_value` (src/gnmi_manager.py lines 348-383): dispatch
on the populated tag through the `value_encodings` table.  `int_val` and
`uint_val` both go through `int_parse`; `decimal_val` returns the decimal's
`digits`; `leaflist_val` decodes each element; the JSON tags return the
parsed document. -/
def get_value : TypedValue → GV
  | .string_val s => .s s
  | .int_val v => int_parse v
  | .uint_val v => int_parse v
  | .bool_val b => .b b
  | .bytes_val bs => .bytes bs
  | .float_val f => .fl f
  | .decimal_val d => .i d
  | .leaflist_val xs => .list (xs.map ll_elem_parse)
  | .json_val j => .json j
  | .json_ietf_val j => .json j
  | .ascii_val s => .s s
  | .proto_bytes bs => .bytes bs

/-- `WhichOneof("value") in ["json_val", "json_ietf_val"]`. -/
def TypedValue.tagIsJson : TypedValue → Bool
  | .json_val _ | .json_ietf_val _ => true
  | _ => false

/- ### Python error model -/

/-- The Python exceptions that the embedded fragments can raise.
`GNMIManager.get` and `GNMIManager.get_config` wrap any of these in a
`GNMIException` whose message keeps them apart; the constructor records
which underlying error occurred. -/
inductive PyErr where
  | indexError : PyErr
  | valueError : PyErr
  | keyError : String → PyErr
  | attributeError : PyErr
  | unsupportedEncoding : PyErr
deriving DecidableEq

/- ### The path codec: utils.create_gnmi_path -/

/-- State of the bracket scanner for the lookahead
`(?=(?:[^\[\]]|\[[^\[\]]+\])*$)` of the splitting regex: `none` means the
scan is outside a bracket group, `some seen` means it is inside one and
`seen` records whether at least one content character has been consumed. -/
def balScan : List Char → Option Bool → Bool
  | [], st => st.isNone
  | c :: rest, none =>
      if c = ']' then false
      else if c = '[' then balScan rest (some false)
      else balScan rest none
  | c :: rest, some seen =>
      if c = ']' then seen && balScan rest none
      else if c = '[' then false
      else balScan rest (some true)

/-- Whether a suffix matches the lookahead of the splitting regex
`/(?=(?:[^\[\]]|\[[^\[\]]+\])*$)`: it must consist of non-bracket
characters and complete bracket groups `[...]` with non-empty,
bracket-free content. -/
def balancedB (s : List Char) : Bool := balScan s none

/-- Prepend a character to the first group of a split result. -/
def prependHead (c : Char) : List (List Char) → List (List Char)
  | [] => [[c]]
  | g :: gs => (c :: g) :: gs

/-- `re.split(r"/(?=(?:[^\[\]]|\[[^\[\]]+\])*$)", path)`: split on every
`/` whose suffix matches the lookahead, i.e. on every `/` that is not
inside a bracket group. -/
def splitB : List Char → List (List Char)
  | [] => [[]]
  | c :: rest =>
      if c = '/' && balancedB rest then [] :: splitB rest
      else prependHead c (splitB rest)

/-- Scanner for `re.findall(r"\[(.*?)\]", elem)`: `none` means outside a
match, `some acc` means inside one with reversed group content `acc`.  A
match starts at a `[` and its lazy group is the shortest run of characters
before the next `]`; scanning resumes after that `]`; a `[` with no
closing `]` yields no further match. -/
def findBracketsGo : List Char → Option (List Char) → List (List Char)
  | [], _ => []
  | c :: rest, none =>
      if c = '[' then findBracketsGo rest (some [])
      else findBracketsGo rest none
  | c :: rest, some acc =>
      if c = ']' then acc.reverse :: findBracketsGo rest none
      else findBracketsGo rest (some (c :: acc))

/-- `re.findall(r"\[(.*?)\]", elem)`. -/
def findBrackets (s : List Char) : List (List Char) :=
  findBracketsGo s none

/-- `x.split("=", 1)` of a bracket group, fed to `dict(...)`: a group
without `=` makes `dict` raise
`ValueError: dictionary update sequence element ... has length 1`. -/
def splitEq1 (x : List Char) : Except PyErr (List Char × List Char) :=
  if x.contains '=' then
    .ok (x.takeWhile (fun d => d ≠ '='), (x.dropWhile (fun d => d ≠ '=')).drop 1)
  else .error .valueError

/-- `gnmi_pb2.PathElem`: element name and key-predicate map. -/
structure PathElem where
  name : List Char
  key : List (List Char × List Char)
deriving DecidableEq

/-- `gnmi_pb2.Path`: ordered element list. -/
structure GPath where
  elem : List PathElem
deriving DecidableEq

/-- Error-propagating list map modelling a Python `for` loop that can
raise: the first element on which `f` raises aborts the whole loop. -/
def mapE {α β : Type} (f : α → Except PyErr β) : List α → Except PyErr (List β)
  | [] => .ok []
  | x :: xs =>
      match f x with
      | .error e => .error e
      | .ok y =>
          match mapE f xs with
          | .error e => .error e
          | .ok ys => .ok (y :: ys)

/-- `updAssoc` specialised to `List Char` keys (CPython dict assignment). -/
def updAssocL : List (List Char × List Char) → List Char → List Char → List (List Char × List Char)
  | [], k, v => [(k, v)]
  | (k', v') :: rest, k, v =>
      if k' = k then (k', v) :: rest else (k', v') :: updAssocL rest k v

/-- Python dict-building `dict(x.split("=", 1) for x in elem_keys)` with
in-place update for duplicate keys, evaluated left to right, raising on
the first group without `=`. -/
def dictKeysOf (groups : List (List Char)) : Except PyErr (List (List Char × List Char)) :=
  match mapE splitEq1 groups with
  | .error e => .error e
  | .ok kvs => .ok (kvs.foldl (fun m kv => updAssocL m kv.1 kv.2) [])

/-- Body of the `for elem in path_list` loop of `create_gnmi_path`:
`elem_name = elem.split("[", 1)[0]`, `elem_keys = re.findall(...)`,
`dict_keys = dict(x.split("=", 1) for x in elem_keys)`. -/
def parseElem (elem : List Char) : Except PyErr PathElem :=
  match dictKeysOf (findBrackets elem) with
  | .error e => .error e
  | .ok ks => .ok ⟨elem.takeWhile (fun d => d ≠ '['), ks⟩

/-- `utils.create_gnmi_path` (src/utils.py lines 16-33).  `path[0]` on an
empty string raises IndexError; the regex split drops the leading and/or
trailing empty segment when the path starts and/or ends with `/`; each
remaining segment is parsed into a `PathElem`. -/
def create_gnmi_path (path : List Char) : Except PyErr GPath :=
  match path with
  | [] => .error .indexError
  | c0 :: _ =>
      let path_list :=
        if c0 = '/' then
          if path.getLast? = some '/' then ((splitB path).drop 1).dropLast
          else (splitB path).drop 1
        else
          if path.getLast? = some '/' then (splitB path).dropLast
          else splitB path
      match mapE parseElem path_list with
      | .error e => .error e
      | .ok es => .ok ⟨es⟩

/- ### The index-name deriver: utils.yang_path_to_es_index -/

/-- `str.lower()` on one codepoint, for the ASCII and Latin-1 ranges (the
uppercase Latin-1 letters `À`..`Þ` except `×` map to `+32`, like ASCII).
Codepoints above `0xFF` that the deriver's inputs use in this development
are already lowercase, so they are returned unchanged. -/
def pyLowerChar (c : Char) : Char :=
  if 65 ≤ c.toNat ∧ c.toNat ≤ 90 then Char.ofNat (c.toNat + 32)
  else if 192 ≤ c.toNat ∧ c.toNat ≤ 222 ∧ c.toNat ≠ 215 then Char.ofNat (c.toNat + 32)
  else c

/-- `sys.getsizeof` of a `str`, as implemented by CPython 3 (64-bit
compact unicode objects): `49 + n` bytes for an all-ASCII string of `n`
codepoints, `73 + n` for a Latin-1 string, `74 + 2n` for a UCS-2 string
and `76 + 4n` for a UCS-4 string, the representation being chosen by the
widest codepoint present. -/
def pyStrSizeof (s : List Char) : Nat :=
  if s.all (fun c => c.toNat < 128) then 49 + s.length
  else if s.all (fun c => c.toNat < 256) then 73 + s.length
  else if s.all (fun c => c.toNat < 65536) then 74 + 2 * s.length
  else 76 + 4 * s.length

/-- The UTF-8 encoded byte length of one codepoint. -/
def utf8Len (c : Char) : Nat :=
  if c.toNat < 128 then 1
  else if c.toNat < 2048 then 2
  else if c.toNat < 65536 then 3
  else 4

/-- The UTF-8 encoded byte length of a string. -/
def utf8ByteLength (s : List Char) : Nat :=
  s.foldl (fun a c => a + utf8Len c) 0

/-- `index.split("-")`. -/
def splitDash : List Char → List (List Char)
  | [] => [[]]
  | c :: rest =>
      if c = '-' then [] :: splitDash rest
      else prependHead c (splitDash rest)

/-- `"-".join(groups)`. -/
def joinDash (groups : List (List Char)) : List Char :=
  match groups with
  | [] => []
  | g :: gs => gs.foldl (fun a g' => a ++ '-' :: g') g

/-- The replacement chain of `yang_path_to_es_index`:
`name.replace("/", "-").lower().replace(":", "-").replace("[", "-")
.replace("]", "").replace('"', "")`. -/
def esIndexReplace (name : List Char) : List Char :=
  ((((name.map (fun c => if c = '/' then '-' else c)).map pyLowerChar).map
      (fun c => if c = ':' then '-' else c)).map
      (fun c => if c = '[' then '-' else c)).filter
      (fun c => c ≠ ']' ∧ c ≠ '"')

/-- The truncation loop
`while sys.getsizeof(index) + size_of_date > 255:
   index = "-".join(index.split("-")[:-1])`,
fuel-indexed (each iteration shortens a non-empty `index`, and on an empty
`index` the condition is false for any real date, so `length + 1` fuel
always suffices). -/
def truncLoop : Nat → Nat → List Char → List Char
  | 0, _, index => index
  | fuel+1, size_of_date, index =>
      if pyStrSizeof index + size_of_date > 255 then
        truncLoop fuel size_of_date (joinDash ((splitDash index).dropLast))
      else index

/-- `utils.yang_path_to_es_index` (src/utils.py lines 43-49), with the
current date (`get_date()`, a 10-character `YYYY.MM.DD` string) passed as
a parameter.  The byte budget is measured with CPython's
`sys.getsizeof` — the in-memory object size, not the encoded byte
length — of the index and of the date string; the `-gnmi-` joiner is not
counted at all. -/
def yang_path_to_es_index (date : List Char) (name : List Char) : List Char :=
  let index := esIndexReplace name
  let size_of_date := pyStrSizeof date
  let index' := truncLoop (index.length + 1) size_of_date index
  index' ++ ('-' :: 'g' :: 'n' :: 'm' :: 'i' :: '-' :: date)

/- ### Record assembly of GNMIManager.get (per notification) -/

/-- Split a codepoint list on a separator character (`str.split(sep)` for
a one-character separator). -/
def splitChar (sep : Char) : List Char → List (List Char)
  | [] => [[]]
  | c :: rest =>
      if c = sep then [] :: splitChar sep rest
      else prependHead c (splitChar sep rest)

/-- `name.split(":")[0]`: the namespace prefix of a root element name. -/
def nsOfName (name : String) : String :=
  ⟨(splitChar ':' name.data).headD []⟩

/-- Python `xs[-2:]`. -/
def lastTwo {α : Type} (xs : List α) : List α :=
  xs.drop (xs.length - 2)

/-- `"-".join(yang_path.split("/")[-2:])`: the derived leaf field name of
an output document. -/
def leafFieldName (yang_path : String) : String :=
  String.intercalate ("-") ((lastTwo (splitChar '/' yang_path.data)).map (fun l => ⟨l⟩))

/-- `value.replace('"', "").replace("'", "")` applied to a response path
key value (src/gnmi_manager.py line 287). -/
def stripQuotes (s : String) : String :=
  ⟨s.data.filter (fun c => c ≠ '"' ∧ c ≠ Char.ofNat 39)⟩

/-- One `gnmi_pb2.PathElem` of a response path: name and string-valued
key map, in wire order. -/
structure UElem where
  name : String
  key : List (String × String)

/-- One update of a response notification: its path elements and its
typed value. -/
structure Upd where
  path : List UElem
  val : TypedValue

/-- The fields of an output document of `GNMIManager.get` that the claims
observe: the accumulated keys, the absolute yang path, the derived leaf
field name, and the leaf value.  (The remaining fields — timestamp, byte
size, source ip, derived index, device version and hostname — are
response- or session-level metadata copied into every document and are
not modelled.) -/
structure Doc where
  keys : KMap
  yang_path : String
  leaf : String
  value : JValue

/-- Dictionary lookup `self.yang_keywords[ns]` (raises KeyError). -/
def lookupA {α : Type} : List (String × α) → String → Option α
  | [], _ => none
  | (k, v) :: rest, key => if k = key then some v else lookupA rest key

/-- `start_yang_keys[key] = value.replace('"', "").replace("'", "")` for
every key of every path element, in order (src/gnmi_manager.py 282-289). -/
def collectPathKeys (syk : KMap) (elems : List UElem) : KMap :=
  elems.foldl
    (fun acc e => e.key.foldl (fun a kv => updAssoc a kv.1 (.s (stripQuotes kv.2))) acc)
    syk

/-- The walk of a top-level dict payload: `for key, value in
response_value.items(): self._walk_yang_data(sub_yang_path, key, value,
keywords, start_yang_keys, sub_yang_info)` with `sub_yang_path = []`;
`start_yang_keys` is mutated across the fields, `sub_yang_info` collects
the leaves. -/
def walkTopDict (fields : List (String × JValue)) (keywords : List String)
    (syk : KMap) : KMap × List LeafRec :=
  fields.foldl
    (fun (acc : KMap × List LeafRec) kv =>
      let w := walk_yang_data [] kv.1 kv.2 keywords acc.1
      (w.1, acc.2 ++ w.2))
    (syk, [])

/-- The walk of a top-level list payload: each element must be a dict
(otherwise `.items()` raises AttributeError), and its fields are walked
like a top-level dict. -/
def walkTopList (items : List JValue) (keywords : List String)
    (syk : KMap) (acc : List LeafRec) : Except PyErr (KMap × List LeafRec) :=
  match items with
  | [] => .ok (syk, acc)
  | item :: rest =>
      if item.isDict then
        let w := walkTopDict item.fields keywords syk
        walkTopList rest keywords w.1 (acc ++ w.2)
      else .error .attributeError

/-- Dispatch of a decoded JSON payload of one update
(src/gnmi_manager.py 293-304): a list fans out over its elements, a dict
is walked directly, anything else has no `.items()` and raises
AttributeError. -/
def walkPayload (j : JValue) (keywords : List String) (syk : KMap) :
    Except PyErr (KMap × List LeafRec) :=
  if j.isList then walkTopList j.elements keywords syk []
  else if j.isDict then .ok (walkTopDict j.fields keywords syk)
  else .error .attributeError

/-- Assembly of one output document from one flattened leaf
(src/gnmi_manager.py 305-317). -/
def mkDoc (start_yang_path_str : String) (r : LeafRec) : Doc :=
  let yang_path := start_yang_path_str ++ ("/") ++ r.yang_path
  ⟨r.keys, yang_path, leafFieldName yang_path, r.value⟩

/-- The `for update in notification.update` loop of `GNMIManager.get`
(src/gnmi_manager.py 276-319), threading the per-notification
accumulators exactly as the Python does: `start_yang_path` and
`start_yang_keys` grow across updates, `sub_yang_info` accumulates the
leaves of every update seen so far (so the document loop of a later
update re-emits the documents of earlier updates), and a non-JSON value
tag raises `GNMIException("Unsupported Get encoding")`.  The keyword set
is looked up under `start_yang_path[0].split(":")[0]` and a missing
namespace raises KeyError. -/
def procUpdates (yang_keywords : List (String × List String)) :
    List String → KMap → List LeafRec → List Doc → List Upd → Except PyErr (List Doc)
  | _, _, _, rc, [] => .ok rc
  | syp, syk, info, rc, u :: rest =>
      let syp' := syp ++ u.path.map (fun e => e.name)
      let syk' := collectPathKeys syk u.path
      match syp'.head? with
      | none => .error .indexError
      | some first =>
          match lookupA yang_keywords (nsOfName first) with
          | none => .error (.keyError (nsOfName first))
          | some keywords =>
              match u.val with
              | .json_val j | .json_ietf_val j =>
                  (match walkPayload j keywords syk' with
                   | .error e => .error e
                   | .ok (syk2, newInfo) =>
                       let info' := info ++ newInfo
                       let syps := String.intercalate ("/") syp'
                       procUpdates yang_keywords syp' syk2 info'
                         (rc ++ info'.map (mkDoc syps)) rest)
              | _ => .error .unsupportedEncoding

/-- Processing of one notification by `GNMIManager.get`: the accumulators
start empty and the update loop runs over the notification's updates. -/
def procNotification (yang_keywords : List (String × List String))
    (updates : List Upd) : Except PyErr (List Doc) :=
  procUpdates yang_keywords [] [] [] [] updates

/- ### Record assembly of GNMIManager.subscribe (per response) -/

/-- The prefix header of a subscribe notification (`response.update`):
origin and path elements. -/
structure SubHeader where
  origin : String
  elems : List UElem

/-- A streaming subscribe response: the sync flag, the notification
header and its updates. -/
structure SubResp where
  sync_response : Bool
  header : SubHeader
  updates : List Upd

/-- The fields of a subscribe output document that the claims observe. -/
structure SubDoc where
  keys : List (String × String)
  yang_path : String
  leaf : String
  value : GV

/-- `GNMIManager.process_header` (src/gnmi_manager.py 338-346): collect
the prefix keys with `keys.update(elem.key)` (no quote stripping) and
join the prefix element names under the origin. -/
def process_header (h : SubHeader) : List (String × String) × String :=
  let keys := h.elems.foldl
    (fun acc e => e.key.foldl (fun a kv => updAssoc a kv.1 kv.2) acc) []
  (keys, h.origin ++ (":") ++ String.intercalate ("/") (h.elems.map (fun e => e.name)))

/-- The per-update body of the subscribe loop
(src/gnmi_manager.py 426-443): one document per update, with the decoded
value stored under the derived leaf field and no flattening and no
encoding check. -/
def subscribe_parse_update (h : SubHeader) (u : Upd) : SubDoc :=
  let hk := process_header h
  let total_yang_path :=
    hk.2 ++ ("/") ++ String.intercalate ("/") (u.path.map (fun e => e.name))
  ⟨hk.1, total_yang_path, leafFieldName total_yang_path, get_value u.val⟩

/-- The per-response body of the subscribe loop
(src/gnmi_manager.py 424-443): a sync response yields nothing; otherwise
every update yields exactly one document. -/
def subscribe_process (r : SubResp) : List SubDoc :=
  if r.sync_response then []
  else r.updates.map (subscribe_parse_update r.header)

/- ### The set-request builder: responses.ParsedSetRequest -/

/-- Minimal JSON string escaping of `json.dumps` (quote and backslash;
the configuration payloads of the claims contain no control or non-ASCII
characters, whose `\uXXXX` escapes are therefore not modelled). -/
def jsonEscape (s : String) : String :=
  ⟨s.data.foldr
    (fun c acc =>
      if c = '"' then '\\' :: '"' :: acc
      else if c = '\\' then '\\' :: '\\' :: acc
      else c :: acc) []⟩

/-- `json.dumps` of a JSON scalar. -/
def dumpPrim : JPrim → String
  | .s s => ("\"") ++ jsonEscape s ++ ("\"")
  | .i n => toString n
  | .b true => ("true")
  | .b false => ("false")
  | .null => ("null")

/-- `json.dumps` with CPython's default separators `", "` and `": "`,
fuel-indexed like the walker. -/
def jsonDumpsF : Nat → JValue → String
  | 0, _ => ("")
  | fuel+1, j =>
      if j.isDict then
        ("\x7b") ++
          String.intercalate (", ")
            (j.fields.map (fun kv =>
              ("\"") ++ jsonEscape kv.1 ++ ("\": ") ++ jsonDumpsF fuel kv.2)) ++
          ("\x7d")
      else if j.isList then
        ("[") ++ String.intercalate (", ") (j.elements.map (jsonDumpsF fuel)) ++ ("]")
      else
        match j with
        | .prim p => dumpPrim p
        | _ => ("")

/-- `json.dumps(config)`. -/
def jsonDumps (j : JValue) : String :=
  jsonDumpsF (jsize j) j

/-- One entry of the `update`/`replace` list of a `ParsedSetRequest`:
`Update(path=create_gnmi_path(path), val=TypedValue(json_ietf_val=
json.dumps(config).encode()))`, with the wire bytes kept as the JSON
text. -/
structure SetUpd where
  path : GPath
  val_json : String
deriving DecidableEq

/-- `responses.ParsedSetRequest` after construction: the three request
sets, all built eagerly in `__init__`. -/
structure ParsedSetRequestM where
  delete : List GPath
  update : List SetUpd
  replace : List SetUpd
deriving DecidableEq

/-- `_create_updates` body for one `(path, config)` item. -/
def mkSetUpd (kv : String × JValue) : Except PyErr SetUpd :=
  match create_gnmi_path kv.1.data with
  | .error e => .error e
  | .ok p => .ok ⟨p, jsonDumps kv.2⟩

/-- `responses.ParsedSetRequest.__init__` (src/responses.py 22-41): build
the delete paths (one `create_gnmi_path` per mapping key), then the
update entries, then the replace entries (a second, identical run of
`_create_updates`). -/
def mk_parsed_set_request (configs : List (String × JValue)) :
    Except PyErr ParsedSetRequestM :=
  match mapE (fun kv => create_gnmi_path kv.1.data) configs with
  | .error e => .error e
  | .ok dels =>
      match mapE mkSetUpd configs with
      | .error e => .error e
      | .ok upds =>
          match mapE mkSetUpd configs with
          | .error e => .error e
          | .ok reps => .ok ⟨dels, upds, reps⟩

/-- The codepoints of a string literal. -/
def cs (s : String) : List Char := s.data

set_option maxRecDepth 40000

/- ### Lemmas about the splitting regex scanner -/

theorem balScan_close (v t : List Char)
    (hv : ∀ c ∈ v, c ≠ '[' ∧ c ≠ ']') :
    balScan (v ++ ']' :: t) none = false := by
  induction v with
  | nil => simp [balScan]
  | cons c v ih =>
      have hc := hv c (by simp)
      have ih' := ih (fun d hd => hv d (by simp [hd]))
      simp [balScan, hc.1, hc.2, ih']

theorem balScan_seen (v t : List Char)
    (hv : ∀ c ∈ v, c ≠ '[' ∧ c ≠ ']') :
    balScan (v ++ ']' :: t) (some true) = balancedB t := by
  induction v with
  | nil => simp [balScan, balancedB]
  | cons c v ih =>
      have hc := hv c (by simp)
      have ih' := ih (fun d hd => hv d (by simp [hd]))
      simp [balScan, hc.1, hc.2, ih']

theorem prependHead_ne_nil (c : Char) (gs : List (List Char)) :
    prependHead c gs ≠ [] := by
  cases gs <;> simp [prependHead]

theorem splitB_ne_nil (s : List Char) : splitB s ≠ [] := by
  cases s with
  | nil => simp [splitB]
  | cons c rest =>
      simp only [splitB]
      split
      · simp
      · exact prependHead_ne_nil c (splitB rest)

theorem splitB_close (v t : List Char)
    (hv : ∀ c ∈ v, c ≠ '[' ∧ c ≠ ']') :
    splitB (v ++ ']' :: t) =
      (v ++ (splitB (']' :: t)).headI) :: (splitB (']' :: t)).tail := by
  induction v with
  | nil =>
      cases hs : splitB (']' :: t) with
      | nil => exact absurd hs (splitB_ne_nil (']' :: t))
      | cons g gs => simp [hs]
  | cons c v ih =>
      have hb : balancedB (v ++ ']' :: t) = false :=
        balScan_close v t (fun d hd => hv d (by simp [hd]))
      have ih' := ih (fun d hd => hv d (by simp [hd]))
      cases hs : splitB (']' :: t) with
      | nil => exact absurd hs (splitB_ne_nil (']' :: t))
      | cons g gs =>
          rw [hs] at ih'
          have hcond : (decide (c = '/') && balancedB (v ++ ']' :: t)) = false := by
            rw [hb]
            simp
          simp only [List.cons_append, splitB, List.append_eq]
          rw [hcond]
          simp [prependHead, ih']

theorem findBracketsGo_close (v : List Char) (acc t : List Char)
    (hv : ∀ c ∈ v, c ≠ ']') :
    findBracketsGo (v ++ ']' :: t) (some acc) =
      (acc.reverse ++ v) :: findBracketsGo t none := by
  induction v generalizing acc with
  | nil => simp [findBracketsGo]
  | cons c v ih =>
      have hc := hv c (by simp)
      have ih' := ih (c :: acc) (fun d hd => hv d (by simp [hd]))
      simp [findBracketsGo, hc, ih']

theorem takeWhile_append_stop (p : Char → Bool) (v t : List Char) (stop : Char)
    (hv : ∀ c ∈ v, p c = true) (hstop : p stop = false) :
    (v ++ stop :: t).takeWhile p = v ∧
    (v ++ stop :: t).dropWhile p = stop :: t := by
  induction v with
  | nil => simp [List.takeWhile, List.dropWhile, hstop]
  | cons c v ih =>
      have hc := hv c (by simp)
      have ih' := ih (fun d hd => hv d (by simp [hd]))
      simp [List.takeWhile, List.dropWhile, hc, ih'.1, ih'.2]

theorem create_gnmi_path_mid_predicate (v : List Char)
    (hv : ∀ c ∈ v, c ≠ '[' ∧ c ≠ ']') :
    create_gnmi_path (cs ("/a/b[k=") ++ v ++ cs ("]/c")) =
      .ok ⟨[⟨cs ("a"), []⟩, ⟨cs ("b"), [(cs ("k"), v)]⟩, ⟨cs ("c"), []⟩]⟩ := by
  have e1 : cs ("/a/b[k=") ++ v ++ cs ("]/c")
      = '/' :: 'a' :: '/' :: 'b' :: '[' :: 'k' :: '=' :: (v ++ ']' :: '/' :: 'c' :: []) := rfl
  rw [e1]
  have hseen : balScan (v ++ ']' :: '/' :: 'c' :: []) (some true)
      = balancedB ('/' :: 'c' :: []) := balScan_seen v _ hv
  have hb1 : balancedB ('a' :: '/' :: 'b' :: '[' :: 'k' :: '='
      :: (v ++ ']' :: '/' :: 'c' :: [])) = true := by
    have e : balancedB ('a' :: '/' :: 'b' :: '[' :: 'k' :: '='
        :: (v ++ ']' :: '/' :: 'c' :: []))
        = balScan (v ++ ']' :: '/' :: 'c' :: []) (some true) := rfl
    rw [e, hseen]
    rfl
  have hb2 : balancedB ('b' :: '[' :: 'k' :: '='
      :: (v ++ ']' :: '/' :: 'c' :: [])) = true := by
    have e : balancedB ('b' :: '[' :: 'k' :: '='
        :: (v ++ ']' :: '/' :: 'c' :: []))
        = balScan (v ++ ']' :: '/' :: 'c' :: []) (some true) := rfl
    rw [e, hseen]
    rfl
  have hclose := splitB_close v ('/' :: 'c' :: []) hv
  rw [show splitB (']' :: '/' :: 'c' :: []) = [[']'], ['c']] from rfl] at hclose
  simp only [List.headI, List.tail] at hclose
  have hsplit : splitB ('/' :: 'a' :: '/' :: 'b' :: '[' :: 'k' :: '='
      :: (v ++ ']' :: '/' :: 'c' :: []))
      = [[], ['a'], 'b' :: '[' :: 'k' :: '=' :: (v ++ [']']), ['c']] := by
    simp [splitB, hb1, hb2, hclose, prependHead, List.append_eq]
  have hlast : ('/' :: 'a' :: '/' :: 'b' :: '[' :: 'k' :: '='
      :: (v ++ ']' :: '/' :: 'c' :: [])).getLast? = some 'c' := by
    have e2 : '/' :: 'a' :: '/' :: 'b' :: '[' :: 'k' :: '='
        :: (v ++ ']' :: '/' :: 'c' :: [])
        = (('/' :: 'a' :: '/' :: 'b' :: '[' :: 'k' :: '=' :: []) ++ v)
            ++ (']' :: '/' :: 'c' :: []) := by
      rw [List.append_assoc]
      rfl
    rw [e2, List.getLast?_append_cons]
    rfl
  have hfb : findBrackets ('b' :: '[' :: 'k' :: '=' :: (v ++ [']'])) = [('k' :: '=' :: v)] := by
    have e : findBrackets ('b' :: '[' :: 'k' :: '=' :: (v ++ [']']))
        = findBracketsGo (v ++ ']' :: []) (some ('=' :: 'k' :: [])) := rfl
    rw [e, findBracketsGo_close v ('=' :: 'k' :: []) [] (fun c hc => (hv c hc).2)]
    rfl
  have htake := takeWhile_append_stop (fun d => decide (d ≠ '=')) ['k'] v '='
    (by decide) (by decide)
  have hname : ('b' :: '[' :: 'k' :: '=' :: (v ++ [']'])).takeWhile (fun d => d ≠ '[') = ['b'] := by
    simp [List.takeWhile]
  have hsp : splitEq1 ('k' :: '=' :: v) = .ok (['k'], v) := by
    have hcont : ('k' :: '=' :: v).contains '=' = true := by
      simp [List.contains]
    simp only [splitEq1, hcont, if_true]
    rw [show ('k' :: '=' :: v : List Char) = ['k'] ++ '=' :: v from rfl]
    rw [htake.1, htake.2]
    rfl
  have hpe1 : parseElem (['a'] : List Char) = .ok ⟨cs ("a"), []⟩ := rfl
  have hpe3 : parseElem (['c'] : List Char) = .ok ⟨cs ("c"), []⟩ := rfl
  have hpe2 : parseElem ('b' :: '[' :: 'k' :: '=' :: (v ++ [']']))
      = .ok ⟨cs ("b"), [(cs ("k"), v)]⟩ := by
    simp only [parseElem, dictKeysOf, hfb, mapE, hsp]
    simp only [updAssocL, List.foldl]
    rw [hname]
    rfl
  have hcgp : create_gnmi_path ('/' :: 'a' :: '/' :: 'b' :: '[' :: 'k' :: '='
      :: (v ++ ']' :: '/' :: 'c' :: []))
      = (match mapE parseElem
          (if ('/' :: 'a' :: '/' :: 'b' :: '[' :: 'k' :: '='
              :: (v ++ ']' :: '/' :: 'c' :: [])).getLast? = some '/' then
            (((splitB ('/' :: 'a' :: '/' :: 'b' :: '[' :: 'k' :: '='
              :: (v ++ ']' :: '/' :: 'c' :: []))).drop 1).dropLast)
          else ((splitB ('/' :: 'a' :: '/' :: 'b' :: '[' :: 'k' :: '='
              :: (v ++ ']' :: '/' :: 'c' :: []))).drop 1)) with
         | .error e => (.error e : Except PyErr GPath)
         | .ok es => .ok ⟨es⟩) := rfl
  rw [hcgp, hlast, hsplit]
  simp only [List.drop, List.dropLast]
  norm_num
  simp only [mapE, hpe1, hpe2, hpe3]

theorem create_gnmi_path_raw_value (v : List Char)
    (hv : ∀ c ∈ v, c ≠ '[' ∧ c ≠ ']') :
    create_gnmi_path (cs ("/a[k=") ++ v ++ cs ("]")) =
      .ok ⟨[⟨cs ("a"), [(cs ("k"), v)]⟩]⟩ := by
  have e1 : cs ("/a[k=") ++ v ++ cs ("]")
      = '/' :: 'a' :: '[' :: 'k' :: '=' :: (v ++ ']' :: []) := rfl
  rw [e1]
  have hseen : balScan (v ++ ']' :: []) (some true) = balancedB [] :=
    balScan_seen v [] hv
  have hb1 : balancedB ('a' :: '[' :: 'k' :: '=' :: (v ++ ']' :: [])) = true := by
    have e : balancedB ('a' :: '[' :: 'k' :: '=' :: (v ++ ']' :: []))
        = balScan (v ++ ']' :: []) (some true) := rfl
    rw [e, hseen]
    rfl
  have hclose := splitB_close v [] hv
  rw [show splitB (']' :: []) = [[']']] from rfl] at hclose
  simp only [List.headI, List.tail] at hclose
  have hsplit : splitB ('/' :: 'a' :: '[' :: 'k' :: '=' :: (v ++ ']' :: []))
      = [[], 'a' :: '[' :: 'k' :: '=' :: (v ++ [']'])] := by
    simp [splitB, hb1, hclose, prependHead, List.append_eq]
  have hlast : ('/' :: 'a' :: '[' :: 'k' :: '=' :: (v ++ ']' :: [])).getLast? = some ']' := by
    have e2 : '/' :: 'a' :: '[' :: 'k' :: '=' :: (v ++ ']' :: [])
        = (('/' :: 'a' :: '[' :: 'k' :: '=' :: []) ++ v) ++ (']' :: []) := by
      rw [List.append_assoc]
      rfl
    rw [e2, List.getLast?_append_cons]
    rfl
  have hfb : findBrackets ('a' :: '[' :: 'k' :: '=' :: (v ++ [']'])) = [('k' :: '=' :: v)] := by
    have e : findBrackets ('a' :: '[' :: 'k' :: '=' :: (v ++ [']']))
        = findBracketsGo (v ++ ']' :: []) (some ('=' :: 'k' :: [])) := rfl
    rw [e, findBracketsGo_close v ('=' :: 'k' :: []) [] (fun c hc => (hv c hc).2)]
    rfl
  have htake := takeWhile_append_stop (fun d => decide (d ≠ '=')) ['k'] v '='
    (by decide) (by decide)
  have hname : ('a' :: '[' :: 'k' :: '=' :: (v ++ [']'])).takeWhile (fun d => d ≠ '[') = ['a'] := by
    simp [List.takeWhile]
  have hsp : splitEq1 ('k' :: '=' :: v) = .ok (['k'], v) := by
    have hcont : ('k' :: '=' :: v).contains '=' = true := by
      simp [List.contains]
    simp only [splitEq1, hcont, if_true]
    rw [show ('k' :: '=' :: v : List Char) = ['k'] ++ '=' :: v from rfl]
    rw [htake.1, htake.2]
    rfl
  have hpe : parseElem ('a' :: '[' :: 'k' :: '=' :: (v ++ [']']))
      = .ok ⟨cs ("a"), [(cs ("k"), v)]⟩ := by
    simp only [parseElem, dictKeysOf, hfb, mapE, hsp]
    simp only [updAssocL, List.foldl]
    rw [hname]
    rfl
  have hcgp : create_gnmi_path ('/' :: 'a' :: '[' :: 'k' :: '=' :: (v ++ ']' :: []))
      = (match mapE parseElem
          (if ('/' :: 'a' :: '[' :: 'k' :: '='
              :: (v ++ ']' :: [])).getLast? = some '/' then
            (((splitB ('/' :: 'a' :: '[' :: 'k' :: '='
              :: (v ++ ']' :: []))).drop 1).dropLast)
          else ((splitB ('/' :: 'a' :: '[' :: 'k' :: '='
              :: (v ++ ']' :: []))).drop 1)) with
         | .error e => (.error e : Except PyErr GPath)
         | .ok es => .ok ⟨es⟩) := rfl
  rw [hcgp, hlast, hsplit]
  simp only [List.drop]
  norm_num
  simp only [mapE, hpe]

/- ### Lemmas about the walker -/

theorem walkF_frame (fuel : Nat) (yp : List String) (nm : String) (v : JValue)
    (kw : List String) (K : KMap) (h : v.isDict = true ∨ v.isList = true) :
    (walkF fuel yp nm v kw K).1 = K := by
  cases fuel with
  | zero => simp [walkF]
  | succ f =>
      cases v <;> simp_all [walkF, JValue.isDict, JValue.isList]

theorem walkF_prim (f : Nat) (yp : List String) (nm : String) (p : JPrim)
    (kw : List String) (K : KMap) :
    walkF (f + 1) yp nm (.prim p) kw K =
      if nm ∈ kw then (updAssoc K nm p, [])
      else (K, [⟨K, String.intercalate ("/") (yp ++ [nm]), .prim p⟩]) := rfl

theorem walkF_leak (f : Nat) (yp : List String) (nm ka kb : String)
    (va vb : JPrim) (kw : List String) (K : KMap)
    (h1 : ka ∈ kw) (h2 : kb ∉ kw) :
    walkF (f + 1 + 1) yp nm (jarr [jobj [(ka, .prim va)], jobj [(kb, .prim vb)]]) kw K
      = (K, [⟨updAssoc K ka va,
              String.intercalate ("/") ((yp ++ [nm]) ++ [kb]), .prim vb⟩]) := by
  simp [walkF, jarr, jobj, JValue.isDict, JValue.isList, JValue.fields,
    JValue.elements, List.foldl, h1, h2]

/- ### Lemmas about mapE -/

theorem mapE_ok_length {α β : Type} (f : α → Except PyErr β) (xs : List α) :
    ∀ ys : List β, mapE f xs = .ok ys → ys.length = xs.length := by
  induction xs with
  | nil =>
      intro ys h
      simp only [mapE, Except.ok.injEq] at h
      subst h
      rfl
  | cons x xs ih =>
      intro ys h
      simp only [mapE] at h
      cases hfx : f x with
      | error e => rw [hfx] at h; exact absurd h (by simp)
      | ok y =>
          rw [hfx] at h
          cases hr : mapE f xs with
          | error e => rw [hr] at h; exact absurd h (by simp)
          | ok zs =>
              rw [hr] at h
              simp only [Except.ok.injEq] at h
              subst h
              simp [ih zs hr]

theorem mapE_del_eq_upd_path (configs : List (String × JValue)) :
    mapE (fun kv => create_gnmi_path kv.1.data) configs
      = Except.map (List.map SetUpd.path) (mapE mkSetUpd configs) := by
  induction configs with
  | nil => rfl
  | cons kv rest ih =>
      simp only [mapE, mkSetUpd]
      cases hc : create_gnmi_path kv.1.data with
      | error e => simp [Except.map]
      | ok p =>
          cases hr : mapE mkSetUpd rest with
          | error e =>
              rw [hr] at ih
              simp only [mapE] at ih ⊢
              simp [ih, hr, Except.map]
          | ok us =>
              rw [hr] at ih
              simp only [mapE] at ih ⊢
              simp [ih, hr, Except.map]

theorem mapE_upd_val (configs : List (String × JValue)) :
    ∀ upds : List SetUpd, mapE mkSetUpd configs = .ok upds →
      upds.map SetUpd.val_json = configs.map (fun kv => jsonDumps kv.2) := by
  induction configs with
  | nil =>
      intro upds h
      simp only [mapE, Except.ok.injEq] at h
      subst h
      rfl
  | cons kv rest ih =>
      intro upds h
      simp only [mapE, mkSetUpd] at h
      cases hc : create_gnmi_path kv.1.data with
      | error e => rw [hc] at h; exact absurd h (by simp)
      | ok p =>
          rw [hc] at h
          cases hr : mapE mkSetUpd rest with
          | error e => rw [hr] at h; exact absurd h (by simp)
          | ok us =>
              rw [hr] at h
              simp only [Except.ok.injEq] at h
              subst h
              simp [ih us hr]

/- ### Claim theorems -/

/-- C1 (counterexample): the flattener does NOT isolate successive
elements of a list of mappings.  Flattening the list
`[{"id": "e1", "v": 1}, {"v": 2}]` under keyword set `{"id"}` emits, for
the second element — which contains no key leaf at all — a record whose
keys are `{"id": "e1"}`, inherited from the key-leaf assignment made
inside the first element: all elements of a list share the single
`key_temp` copy made at the list node, so the assignment leaks across
siblings, contradicting the claim that records emitted under one sibling
branch are unaffected by key-leaf assignments made inside a different
sibling branch across successive elements of a list of mappings. -/
theorem c1_counterexample :
    walk_yang_data [] ("lst")
      (jarr [jobj [(("id"), .prim (.s ("e1"))), (("v"), .prim (.i 1))],
             jobj [(("v"), .prim (.i 2))]])
      [("id")] []
    = ([], [⟨[(("id"), .s ("e1"))], ("lst/v"), .prim (.i 1)⟩,
            ⟨[(("id"), .s ("e1"))], ("lst/v"), .prim (.i 2)⟩]) := rfl

/-- C1 (amended): the flattener makes one copy of the accumulated key map
at each mapping or list node and mutates only the dict passed by its
caller, so (1, 2) walking a mapping or a list never mutates the caller's
key map — sibling subtrees of the caller and records already emitted from
fresh snapshots are unaffected; (3) a scalar key leaf mutates the
caller's map (the shared per-node copy), which is how the assignment
becomes visible to siblings visited later and their descendants; and (4)
because successive elements of a list of mappings share the list node's
single copy, a key-leaf assignment inside an earlier element IS visible
to the records emitted under later elements. -/
theorem c1_theorem :
    (∀ (yp : List String) (nm : String) (v : JValue) (kw : List String) (K : KMap),
      v.isDict = true → (walk_yang_data yp nm v kw K).1 = K) ∧
    (∀ (yp : List String) (nm : String) (v : JValue) (kw : List String) (K : KMap),
      v.isList = true → (walk_yang_data yp nm v kw K).1 = K) ∧
    (∀ (yp : List String) (nm : String) (p : JPrim) (kw : List String) (K : KMap),
      nm ∈ kw → walk_yang_data yp nm (.prim p) kw K = (updAssoc K nm p, [])) ∧
    (∀ (yp : List String) (nm ka kb : String) (va vb : JPrim)
        (kw : List String) (K : KMap), ka ∈ kw → kb ∉ kw →
      walk_yang_data yp nm (jarr [jobj [(ka, .prim va)], jobj [(kb, .prim vb)]]) kw K
        = (K, [⟨updAssoc K ka va,
                String.intercalate ("/") ((yp ++ [nm]) ++ [kb]), .prim vb⟩])) := by
  refine ⟨?_, ?_, ?_, ?_⟩
  · intro yp nm v kw K h
    exact walkF_frame (jsize v) yp nm v kw K (Or.inl h)
  · intro yp nm v kw K h
    exact walkF_frame (jsize v) yp nm v kw K (Or.inr h)
  · intro yp nm p kw K h
    have e : walk_yang_data yp nm (.prim p) kw K
        = walkF (0 + 1) yp nm (.prim p) kw K := rfl
    rw [e, walkF_prim, if_pos h]
  · intro yp nm ka kb va vb kw K h1 h2
    have e : walk_yang_data yp nm
        (jarr [jobj [(ka, .prim va)], jobj [(kb, .prim vb)]]) kw K
        = walkF (7 + 1 + 1) yp nm
            (jarr [jobj [(ka, .prim va)], jobj [(kb, .prim vb)]]) kw K := rfl
    rw [e]
    exact walkF_leak 7 yp nm ka kb va vb kw K h1 h2

/-- C1 (witness): the amended statement at concrete inputs. -/
theorem c1_witness :
    (walk_yang_data [] ("x") (jobj [(("a"), .prim (.i 1))]) [] []).1 = [] ∧
    (walk_yang_data [] ("y") (jarr [.prim (.i 2)]) [] []).1 = [] ∧
    walk_yang_data [] ("m") (.prim (.s ("v0"))) [("m")] []
      = (updAssoc [] ("m") (.s ("v0")), []) ∧
    walk_yang_data [] ("lst2")
        (jarr [jobj [(("k1"), .prim (.s ("a")))], jobj [(("w"), .prim (.i 9))]])
        [("k1")] []
      = ([], [⟨updAssoc [] ("k1") (.s ("a")),
              String.intercalate ("/") (([] ++ [("lst2")]) ++ [("w")]), .prim (.i 9)⟩]) :=
  ⟨c1_theorem.1 [] ("x") (jobj [(("a"), .prim (.i 1))]) [] [] rfl,
   c1_theorem.2.1 [] ("y") (jarr [.prim (.i 2)]) [] [] rfl,
   c1_theorem.2.2.1 [] ("m") (.s ("v0")) [("m")] [] (by simp),
   c1_theorem.2.2.2 [] ("lst2") ("k1") ("w") (.s ("a")) (.i 9) [("k1")] []
     (by simp) (by simp)⟩

/-- C2: the typed value decoder sends an unsigned-integer value of `2**63`
to the decimal string `"9223372036854775808"` and the value `42` to the
integer `42`; in general `int_parse` converts every unsigned integer
exceeding `2**63 - 1` to its decimal string representation and keeps every
unsigned integer within the signed 63-bit positive range as an integer. -/
theorem c2_theorem :
    get_value (.uint_val (2 ^ 63)) = .s ("9223372036854775808") ∧
    get_value (.uint_val 42) = .i 42 ∧
    (∀ n : Nat, 2 ^ 63 - 1 < n → get_value (.uint_val n) = .s (toString (n : Int))) ∧
    (∀ n : Nat, n ≤ 2 ^ 63 - 1 → get_value (.uint_val n) = .i (n : Int)) := by
  refine ⟨rfl, rfl, ?_, ?_⟩
  · intro n h
    have hn : 9223372036854775807 < n := by
      have e : (2 : Nat) ^ 63 - 1 = 9223372036854775807 := by norm_num
      rw [e] at h
      exact h
    have h' : (n : Int) > 2 ^ 63 - 1 := by
      have e2 : (2 : Int) ^ 63 - 1 = 9223372036854775807 := by norm_num
      rw [gt_iff_lt, e2]
      exact_mod_cast hn
    simp only [get_value, int_parse]
    rw [if_pos h']
  · intro n h
    have hn : n ≤ 9223372036854775807 := by
      have e : (2 : Nat) ^ 63 - 1 = 9223372036854775807 := by norm_num
      rw [e] at h
      exact h
    have h' : ¬ (n : Int) > 2 ^ 63 - 1 := by
      have e2 : (2 : Int) ^ 63 - 1 = 9223372036854775807 := by norm_num
      rw [gt_iff_lt, e2, Int.not_lt]
      exact_mod_cast hn
    simp only [get_value, int_parse]
    rw [if_neg h']

/-- C2 (witness): the general statement applied at `2**63` and `42`. -/
theorem c2_witness :
    get_value (.uint_val (2 ^ 63)) = .s (toString ((2 ^ 63 : Nat) : Int)) ∧
    get_value (.uint_val 42) = .i ((42 : Nat) : Int) :=
  ⟨c2_theorem.2.2.1 (2 ^ 63) (by norm_num),
   c2_theorem.2.2.2 42 (by norm_num)⟩

/-- C3: the index-name deriver caps its result with CPython's
`sys.getsizeof` — the string object's in-memory size, not its encoded
byte length.  On the 123-character Latin-1 path `"é" * 123` (object size
`73 + 123 = 196`, so `196 + 59 ≤ 255` and the truncation loop never
runs), the derived identifier is 262 UTF-8 bytes long, exceeding the
255-byte cap that the claim asserts is never exceeded. -/
theorem c3_theorem :
    utf8ByteLength (yang_path_to_es_index (cs ("2026.10.12"))
      (List.replicate 123 'é')) = 262 ∧
    255 < utf8ByteLength (yang_path_to_es_index (cs ("2026.10.12"))
      (List.replicate 123 'é')) := by
  constructor
  · decide
  · decide

/-- C4: the path codec maps the well-formed empty path `"/"` to a path
with zero elements (not an error), while a bracketed predicate without an
`=` sign (`"/a[b]"`) is rejected with the `dict(...)` ValueError — an
input-format error distinct from the empty-path case. -/
theorem c4_theorem :
    create_gnmi_path (cs ("/")) = .ok ⟨[]⟩ ∧
    create_gnmi_path (cs ("/a[b]")) = .error .valueError :=
  ⟨rfl, rfl⟩

/-- C6: flattening `{"state": {"id": "eth0", "counters": {"in-pkts": 5}}}`
with keyword set `{"id"}` yields exactly one flat leaf record, with keys
`{"id": "eth0"}`, yang_path `"state/counters/in-pkts"` and value `5`. -/
theorem c6_theorem :
    walk_yang_data [] ("state")
      (jobj [(("id"), .prim (.s ("eth0"))),
             (("counters"), jobj [(("in-pkts"), .prim (.i 5))])])
      [("id")] []
    = ([], [⟨[(("id"), .s ("eth0"))], ("state/counters/in-pkts"), .prim (.i 5)⟩]) := rfl

/-- C5 (counterexample): in `GNMIManager.get`, an update whose value
carries a purely scalar tag (`string_val`) does NOT yield one output
document — the non-JSON tag check raises the unsupported-encoding error
instead, so the same read path cannot both raise for non-JSON tags and
emit one document per scalar update. -/
theorem c5_counterexample :
    procNotification [(("ns"), [("id")])]
      [⟨[⟨("ns:model"), []⟩], .string_val ("x")⟩]
      = .error .unsupportedEncoding := rfl

/-- C5 (amended): in `GNMIManager.get`, every update whose tag is not one
of the JSON-carrying variants raises the unsupported-encoding error and
produces no documents (first conjunct); it is `GNMIManager.subscribe`
that yields exactly one output document per update of a non-sync
response, with no flattening and no encoding check, whatever the tag
(second conjunct); and a JSON-carrying update in `get` may fan out into
zero or many documents depending on nesting (last two conjuncts: a
payload consisting only of a key leaf yields zero documents, a payload
with two leaves yields two). -/
theorem c5_theorem :
    (∀ (kwIdx : List (String × List String)) (nm : String)
        (ks : List (String × String)) (pRest : List UElem) (val : TypedValue)
        (rest : List Upd) (kws : List String),
      lookupA kwIdx (nsOfName nm) = some kws → val.tagIsJson = false →
      procNotification kwIdx (⟨⟨nm, ks⟩ :: pRest, val⟩ :: rest)
        = .error .unsupportedEncoding) ∧
    (∀ r : SubResp, r.sync_response = false →
      (subscribe_process r).length = r.updates.length) ∧
    procNotification [(("ns"), [("id")])]
      [⟨[⟨("ns:model"), []⟩], .json_ietf_val (jobj [(("id"), .prim (.s ("x")))])⟩]
      = .ok [] ∧
    procNotification [(("ns"), [("id")])]
      [⟨[⟨("ns:model"), []⟩],
        .json_ietf_val (jobj [(("a"), .prim (.i 1)), (("b"), .prim (.i 2))])⟩]
      = .ok [⟨[], ("ns:model/a"), ("ns:model-a"), .prim (.i 1)⟩,
             ⟨[], ("ns:model/b"), ("ns:model-b"), .prim (.i 2)⟩] := by
  refine ⟨?_, ?_, rfl, rfl⟩
  · intro kwIdx nm ks pRest val rest kws hlook htag
    cases val <;>
      simp_all [procNotification, procUpdates, TypedValue.tagIsJson]
  · intro r h
    simp [subscribe_process, h]

/-- C5 (witness): the amended statement at concrete inputs. -/
theorem c5_witness :
    procNotification [(("ns"), [("id")])]
      [⟨[⟨("ns:model"), []⟩], .int_val 3⟩] = .error .unsupportedEncoding ∧
    (subscribe_process ⟨false, ⟨("o"), []⟩, [⟨[], .bool_val true⟩]⟩).length = 1 :=
  ⟨c5_theorem.1 [(("ns"), [("id")])] ("ns:model") [] [] (.int_val 3) [] [("id")]
      rfl rfl,
   c5_theorem.2.1 ⟨false, ⟨("o"), []⟩, [⟨[], .bool_val true⟩]⟩ rfl⟩

/-- C7: the path codec splits only on `/` characters outside `[...]`
key-predicate brackets, one element per outside-bracket segment:
`"/a/b[k=1]/c"` yields exactly the three elements `a` (no keys), `b` with
key map `{k: "1"}` and `c` (no keys); and for every bracket-free predicate
value `v` — which may itself contain `/` — the path `"/a/b[k=" + v + "]/c"`
still yields exactly these three elements, with `v` as the key value. -/
theorem c7_theorem :
    create_gnmi_path (cs ("/a/b[k=1]/c"))
      = .ok ⟨[⟨cs ("a"), []⟩, ⟨cs ("b"), [(cs ("k"), cs ("1"))]⟩, ⟨cs ("c"), []⟩]⟩ ∧
    ∀ v : List Char, (∀ c ∈ v, c ≠ '[' ∧ c ≠ ']') →
      create_gnmi_path (cs ("/a/b[k=") ++ v ++ cs ("]/c"))
        = .ok ⟨[⟨cs ("a"), []⟩, ⟨cs ("b"), [(cs ("k"), v)]⟩, ⟨cs ("c"), []⟩]⟩ :=
  ⟨rfl, create_gnmi_path_mid_predicate⟩

/-- C7 (witness): the universal part applied to the predicate value
`"1/2"`, whose internal slash does not split the path. -/
theorem c7_witness :
    create_gnmi_path (cs ("/a/b[k=1/2]/c"))
      = .ok ⟨[⟨cs ("a"), []⟩, ⟨cs ("b"), [(cs ("k"), cs ("1/2"))]⟩, ⟨cs ("c"), []⟩]⟩ :=
  c7_theorem.2 (cs ("1/2")) (by decide)

/-- C8 (counterexample): the path codec neither keeps element names
non-empty nor strips quote characters from key values: on `"//a[k=\"v\"]"`
it builds a first element whose name is the empty string (the empty
segment between the two slashes) and a key value `"\"v\""` that retains
its surrounding quotes verbatim. -/
theorem c8_counterexample :
    create_gnmi_path (cs ("//a[k=\"v\"]"))
      = .ok ⟨[⟨[], []⟩, ⟨cs ("a"), [(cs ("k"), cs ("\"v\""))]⟩]⟩ := rfl

/-- C8 (amended): key values of a StructuredPath built by the path codec
are kept exactly as the raw text after the first `=` of the bracket
group — no quote stripping and no numeric normalization — and element
names are the segment text before the first `[` (empty when the segment
is empty): for every bracket-free `v`, parsing `"/a[k=" + v + "]"` yields
the single element `a` with key map `{k: v}`, `v` verbatim. -/
theorem c8_theorem :
    ∀ v : List Char, (∀ c ∈ v, c ≠ '[' ∧ c ≠ ']') →
      create_gnmi_path (cs ("/a[k=") ++ v ++ cs ("]"))
        = .ok ⟨[⟨cs ("a"), [(cs ("k"), v)]⟩]⟩ :=
  create_gnmi_path_raw_value

/-- C8 (witness): the amended statement applied to a quoted value, kept
verbatim with its quotes. -/
theorem c8_witness :
    create_gnmi_path (cs ("/a[k=\"quoted\"]"))
      = .ok ⟨[⟨cs ("a"), [(cs ("k"), cs ("\"quoted\""))]⟩]⟩ :=
  c8_theorem (cs ("\"quoted\"")) (by decide)

/-- C9: if the root namespace of a response's first path element (the
prefix before `:`) has no entry in the keyword index, `GNMIManager.get`
raises the lookup error (`KeyError`, surfaced as a `GNMIException`) and
aborts the response instead of proceeding with an empty keyword set. -/
theorem c9_theorem (kwIdx : List (String × List String)) (nm : String)
    (ks : List (String × String)) (pRest : List UElem) (val : TypedValue)
    (rest : List Upd)
    (h : lookupA kwIdx (nsOfName nm) = none) :
    procNotification kwIdx (⟨⟨nm, ks⟩ :: pRest, val⟩ :: rest)
      = .error (.keyError (nsOfName nm)) := by
  simp [procNotification, procUpdates, h]

/-- C9 (witness): the statement at a concrete response whose namespace
`ns` is absent from an empty keyword index. -/
theorem c9_witness :
    procNotification []
      [⟨[⟨("ns:model"), []⟩], .json_ietf_val (jobj [])⟩]
      = .error (.keyError ("ns")) :=
  c9_theorem [] ("ns:model") [] [] (.json_ietf_val (jobj [])) [] rfl

/-- C10: a ParsedSetRequest eagerly builds all three request sets; from
`{"a/b": {"x": 1}}` it builds exactly one delete path (`a/b`), one update
entry and one replace entry, all three referencing the same structured
path and the update/replace entries carrying the JSON encoding of the
value; and in general the replace set equals the update set, the delete
paths are exactly the update entries' paths, both count one entry per
mapping key, and each update entry carries `json.dumps` of its mapped
value. -/
theorem c10_theorem :
    (mk_parsed_set_request [(("a/b"), jobj [(("x"), .prim (.i 1))])]
      = .ok ⟨[⟨[⟨cs ("a"), []⟩, ⟨cs ("b"), []⟩]⟩],
             [⟨⟨[⟨cs ("a"), []⟩, ⟨cs ("b"), []⟩]⟩, ("\x7b\"x\": 1\x7d")⟩],
             [⟨⟨[⟨cs ("a"), []⟩, ⟨cs ("b"), []⟩]⟩, ("\x7b\"x\": 1\x7d")⟩]⟩) ∧
    ∀ (configs : List (String × JValue)) (psr : ParsedSetRequestM),
      mk_parsed_set_request configs = .ok psr →
      psr.replace = psr.update ∧
      psr.delete = psr.update.map SetUpd.path ∧
      psr.delete.length = configs.length ∧
      psr.update.length = configs.length ∧
      psr.update.map SetUpd.val_json = configs.map (fun kv => jsonDumps kv.2) := by
  refine ⟨rfl, ?_⟩
  intro configs psr h
  unfold mk_parsed_set_request at h
  cases hd : mapE (fun kv => create_gnmi_path kv.1.data) configs with
  | error e => rw [hd] at h; exact absurd h (by simp)
  | ok dels =>
      rw [hd] at h
      cases hu : mapE mkSetUpd configs with
      | error e => rw [hu] at h; exact absurd h (by simp)
      | ok upds =>
          rw [hu] at h
          simp only [Except.ok.injEq] at h
          subst h
          have hdu : dels = upds.map SetUpd.path := by
            have hrel := mapE_del_eq_upd_path configs
            rw [hd, hu] at hrel
            simp only [Except.map] at hrel
            exact (Except.ok.injEq _ _).mp hrel
          refine ⟨rfl, hdu, ?_, ?_, mapE_upd_val configs upds hu⟩
          · exact mapE_ok_length _ configs dels hd
          · exact mapE_ok_length _ configs upds hu

/-- C10 (witness): the general statement applied to the concrete mapping
`{"a/b": {"x": 1}}`. -/
theorem c10_witness :
    (⟨[⟨[⟨cs ("a"), []⟩, ⟨cs ("b"), []⟩]⟩],
      [⟨⟨[⟨cs ("a"), []⟩, ⟨cs ("b"), []⟩]⟩, ("\x7b\"x\": 1\x7d")⟩],
      [⟨⟨[⟨cs ("a"), []⟩, ⟨cs ("b"), []⟩]⟩, ("\x7b\"x\": 1\x7d")⟩]⟩
        : ParsedSetRequestM).replace
      = (⟨[⟨[⟨cs ("a"), []⟩, ⟨cs ("b"), []⟩]⟩],
          [⟨⟨[⟨cs ("a"), []⟩, ⟨cs ("b"), []⟩]⟩, ("\x7b\"x\": 1\x7d")⟩],
          [⟨⟨[⟨cs ("a"), []⟩, ⟨cs ("b"), []⟩]⟩, ("\x7b\"x\": 1\x7d")⟩]⟩
            : ParsedSetRequestM).update ∧
    (⟨[⟨[⟨cs ("a"), []⟩, ⟨cs ("b"), []⟩]⟩],
      [⟨⟨[⟨cs ("a"), []⟩, ⟨cs ("b"), []⟩]⟩, ("\x7b\"x\": 1\x7d")⟩],
      [⟨⟨[⟨cs ("a"), []⟩, ⟨cs ("b"), []⟩]⟩, ("\x7b\"x\": 1\x7d")⟩]⟩
        : ParsedSetRequestM).delete.length = 1 := by
  have h := c10_theorem.2 [(("a/b"), jobj [(("x"), .prim (.i 1))])]
    ⟨[⟨[⟨cs ("a"), []⟩, ⟨cs ("b"), []⟩]⟩],
     [⟨⟨[⟨cs ("a"), []⟩, ⟨cs ("b"), []⟩]⟩, ("\x7b\"x\": 1\x7d")⟩],
     [⟨⟨[⟨cs ("a"), []⟩, ⟨cs ("b"), []⟩]⟩, ("\x7b\"x\": 1\x7d")⟩]⟩ rfl
  exact ⟨h.1, h.2.2.1⟩
